import Mathlib

/-!
Shallow embedding of the claude-telepresence relay v2 engine
(`relay.py`) and proofs about its flow control, stream multiplexing,
handshake, tool rendering, path confinement and edit semantics.

Bytes are modelled as `Nat` values below 256; Python `bytes` values are
`List Nat`, Python `str` values are `List Char` (`String` only at the
edges of statements).  Python integers are unbounded, so `Nat`/`Int` are
exact models of the relevant state variables.
-/

namespace Telepresence

/-- One v2 wire packet: a type byte plus payload (the 4-byte big-endian
length field of the header always equals `payload.length`). -/
structure Packet where
  ptype : Nat
  payload : List Nat
deriving Repr, DecidableEq

-- Protocol constants (relay.py 28-99).
def PROTOCOL_VERSION : Nat := 2
def PKT_HELLO : Nat := 0x00
def PKT_HELLO_ACK : Nat := 0x01
def PKT_GOODBYE : Nat := 0x0D
def PKT_PING : Nat := 0x0E
def PKT_PONG : Nat := 0x0F
def PKT_TERM_INPUT : Nat := 0x10
def PKT_TERM_OUTPUT : Nat := 0x11
def PKT_TERM_RESIZE : Nat := 0x12
def PKT_STREAM_OPEN : Nat := 0x20
def PKT_STREAM_DATA : Nat := 0x21
def PKT_STREAM_END : Nat := 0x22
def PKT_STREAM_ERROR : Nat := 0x23
def PKT_STREAM_CANCEL : Nat := 0x24
def PKT_WINDOW_UPDATE : Nat := 0x28

def STREAM_FILE_READ : Nat := 0x01
def STREAM_FILE_WRITE : Nat := 0x02
def STREAM_EXEC : Nat := 0x03
def STREAM_DIR_LIST : Nat := 0x04
def STREAM_FILE_EXISTS : Nat := 0x0B

def FLAG_RESUME : Nat := 0x01
def FLAG_SIMPLE : Nat := 0x02

def GOODBYE_PROTOCOL_ERROR : Nat := 0x01

def STATUS_OK : Nat := 0x00

def MAX_PAYLOAD : Nat := 16 * 1024 * 1024
def DEFAULT_WINDOW : Nat := 256 * 1024
def CHUNK_SIZE : Nat := 64 * 1024
def WINDOW_UPDATE_THRESHOLD : Nat := 8192

/-- struct.unpack of a big-endian u32 from the first four bytes. -/
def beU32 (bs : List Nat) : Nat :=
  (bs.take 4).foldl (fun a b => a * 256 + b) 0

/-- struct.pack of a big-endian u32 (values < 2^32 in all uses). -/
def u32be (n : Nat) : List Nat :=
  [n / 16777216 % 256, n / 65536 % 256, n / 256 % 256, n % 256]

/-- struct.unpack of a big-endian signed i32 (two's complement). -/
def beI32 (bs : List Nat) : Int :=
  let v := beU32 bs
  if v < 2147483648 then (v : Int) else (v : Int) - 4294967296

def replacementChar : Char := Char.ofNat 0xFFFD

/-- UTF-8 decoder, modelling Python `bytes.decode('utf-8', errors='replace')`:
exact on well-formed input; an ill-formed lead or continuation byte yields
U+FFFD and decoding resumes at the following byte.  The fuel is the byte
count; every step consumes at least one byte, so `bs.length` fuel is enough. -/
def utf8DecodeAux : Nat → List Nat → List Char
  | 0, _ => []
  | _, [] => []
  | fuel+1, b :: rest =>
    if b < 0x80 then Char.ofNat b :: utf8DecodeAux fuel rest
    else if 0xC2 ≤ b ∧ b ≤ 0xDF then
      match rest with
      | b2 :: r =>
        if 0x80 ≤ b2 ∧ b2 ≤ 0xBF then
          Char.ofNat ((b - 0xC0) * 64 + (b2 - 0x80)) :: utf8DecodeAux fuel r
        else replacementChar :: utf8DecodeAux fuel rest
      | [] => replacementChar :: utf8DecodeAux fuel []
    else if 0xE0 ≤ b ∧ b ≤ 0xEF then
      match rest with
      | b2 :: b3 :: r =>
        if (0x80 ≤ b2 ∧ b2 ≤ 0xBF) ∧ (0x80 ≤ b3 ∧ b3 ≤ 0xBF) ∧
           ¬ (b = 0xE0 ∧ b2 < 0xA0) ∧ ¬ (b = 0xED ∧ 0xA0 ≤ b2) then
          Char.ofNat ((b - 0xE0) * 4096 + (b2 - 0x80) * 64 + (b3 - 0x80)) ::
            utf8DecodeAux fuel r
        else replacementChar :: utf8DecodeAux fuel rest
      | _ => replacementChar :: utf8DecodeAux fuel rest
    else if 0xF0 ≤ b ∧ b ≤ 0xF4 then
      match rest with
      | b2 :: b3 :: b4 :: r =>
        if (0x80 ≤ b2 ∧ b2 ≤ 0xBF) ∧ (0x80 ≤ b3 ∧ b3 ≤ 0xBF) ∧ (0x80 ≤ b4 ∧ b4 ≤ 0xBF) ∧
           ¬ (b = 0xF0 ∧ b2 < 0x90) ∧ ¬ (b = 0xF4 ∧ 0x90 ≤ b2) then
          Char.ofNat ((b - 0xF0) * 262144 + (b2 - 0x80) * 4096 + (b3 - 0x80) * 64 + (b4 - 0x80)) ::
            utf8DecodeAux fuel r
        else replacementChar :: utf8DecodeAux fuel rest
      | _ => replacementChar :: utf8DecodeAux fuel rest
    else replacementChar :: utf8DecodeAux fuel rest

def utf8Decode (bs : List Nat) : List Char := utf8DecodeAux bs.length bs

/-- UTF-8 encoding of one scalar value. -/
def charUtf8 (c : Char) : List Nat :=
  let n := c.toNat
  if n < 0x80 then [n]
  else if n < 0x800 then [0xC0 + n / 64, 0x80 + n % 64]
  else if n < 0x10000 then [0xE0 + n / 4096, 0x80 + n / 64 % 64, 0x80 + n % 64]
  else [0xF0 + n / 262144, 0x80 + n / 4096 % 64, 0x80 + n / 64 % 64, 0x80 + n % 64]

def utf8Encode (s : List Char) : List Nat := s.flatMap charUtf8

/-- encode_string (relay.py 302-304): UTF-8 bytes followed by a NUL. -/
def encode_string (s : List Char) : List Nat := utf8Encode s ++ [0]

def takeUntilZero : List Nat → List Nat
  | [] => []
  | b :: rest => if b = 0 then [] else b :: takeUntilZero rest

/-- decode_string (relay.py 307-314): scan from `offset` for a NUL; without
one, the residual bytes are the string and the new offset is the length. -/
def decode_string (data : List Nat) (offset : Nat) : List Char × Nat :=
  let rest := data.drop offset
  let pre := takeUntilZero rest
  if pre.length = rest.length then (utf8Decode pre, data.length)
  else (utf8Decode pre, offset + pre.length + 1)

def digitChar (d : Nat) : Char := Char.ofNat (48 + d % 10)

/-- Decimal digits of `n`, most significant first (what Python str() of a
non-negative int prints).  Fuel `n+1` always suffices: the value shrinks by
a factor of ten per step. -/
def natToStrAux : Nat → Nat → List Char
  | 0, _ => []
  | fuel+1, n => if n < 10 then [digitChar n] else natToStrAux fuel (n / 10) ++ [digitChar (n % 10)]

def natToStrL (n : Nat) : List Char := natToStrAux (n + 1) n

/-- Python str() of an int. -/
def intToStrL (i : Int) : List Char :=
  if i < 0 then '-' :: natToStrL i.natAbs else natToStrL i.natAbs

/-- Python format spec `{:6}` on an int: right-justify with spaces to width `w`. -/
def rightJust (w : Nat) (s : List Char) : List Char :=
  List.replicate (w - s.length) ' ' ++ s

def intercalateChars (sep : List Char) : List (List Char) → List Char
  | [] => []
  | [x] => x
  | x :: y :: rest => x ++ sep ++ intercalateChars sep (y :: rest)

/-- Python str.split(sep) for a one-character separator. -/
def splitOnChar (sep : Char) : List Char → List (List Char)
  | [] => [[]]
  | c :: rest =>
    if c = sep then [] :: splitOnChar sep rest
    else
      match splitOnChar sep rest with
      | [] => [[c]]
      | l :: ls => (c :: l) :: ls

instance {ε α : Type} [DecidableEq ε] [DecidableEq α] : DecidableEq (Except ε α) := fun x y =>
  match x, y with
  | .ok a, .ok b =>
    if h : a = b then isTrue (by rw [h]) else isFalse (by intro hc; cases hc; exact h rfl)
  | .error a, .error b =>
    if h : a = b then isTrue (by rw [h]) else isFalse (by intro hc; cases hc; exact h rfl)
  | .ok _, .error _ => isFalse (by intro hc; cases hc)
  | .error _, .ok _ => isFalse (by intro hc; cases hc)

def exceptOk {ε α : Type} : Except ε α → Bool
  | .ok _ => true
  | .error _ => false

/-!
## Outbound flow control (relay.py send_packet 500-511, dispatcher 657-661)
-/

/-- Events that touch the outbound accumulator `bytes_in_flight`. -/
inductive FlowEvent where
  | send (ptype : Nat) (payloadLen : Nat)
  | recvWindowUpdate (payload : List Nat)
deriving Repr

/-- Effect of one event on `bytes_in_flight`, given the peer window
advertised in HELLO.  send_packet gates only STREAM_DATA and TERM_OUTPUT:
such a send completes only while `bytes_in_flight + n ≤ remote_window`
(otherwise the coroutine stays suspended on `window_available` and no send
happens, modelled as no state change); on completion it adds the payload
length.  A WINDOW_UPDATE of increment k sets the accumulator to
max(0, bytes_in_flight - k), which is `Nat` subtraction.  All other packet
types leave the accumulator alone. -/
def flowStep (remote_window : Nat) (bytes_in_flight : Nat) : FlowEvent → Nat
  | .send t n =>
    if t = PKT_STREAM_DATA ∨ t = PKT_TERM_OUTPUT then
      if bytes_in_flight + n ≤ remote_window then bytes_in_flight + n else bytes_in_flight
    else bytes_in_flight
  | .recvWindowUpdate payload =>
    if payload.length ≥ 4 then bytes_in_flight - beU32 (payload.take 4) else bytes_in_flight

/-- `bytes_in_flight` after a session trace, starting from the 0 of a fresh
connection. -/
def flowRun (remote_window : Nat) (events : List FlowEvent) : Nat :=
  events.foldl (flowStep remote_window) 0

/-!
## Stream registry and inbound dispatcher (relay.py 637-776)

Python dicts keyed by stream id are modelled as association lists with
unique keys (`List.lookup`/update/remove).
-/

/-- The value eventually carried by a `pending_streams` future: set_result
of `(status, extra)` on STREAM_END, or set_exception on STREAM_ERROR. -/
inductive Completion where
  | result (status : Nat) (extra : List Nat)
  | failure (error_code : Nat) (message : List Char)
deriving Repr, DecidableEq

/-- Per-session mutable relay state touched by the dispatcher and the
stream initiators (`none` in `pending_streams` is an unresolved future). -/
structure RelayState where
  next_stream_id : Nat
  stream_data : List (Nat × List (List Nat))
  pending_streams : List (Nat × Option Completion)
  bytes_received_unacked : Nat
  bytes_in_flight : Nat
deriving Repr, DecidableEq

def initialRelayState : RelayState := ⟨0, [], [], 0, 0⟩

/-- Dict lookup on an association list with unique keys. -/
def alookup {β : Type} : List (Nat × β) → Nat → Option β
  | [], _ => none
  | e :: rest, k => if e.1 = k then some e.2 else alookup rest k

def aupdate {β : Type} (m : List (Nat × β)) (k : Nat) (f : β → β) : List (Nat × β) :=
  m.map (fun e => if e.1 = k then (e.1, f e.2) else e)

def aremove {β : Type} (m : List (Nat × β)) (k : Nat) : List (Nat × β) :=
  m.filter (fun e => e.1 ≠ k)

/-- alloc_stream_id (relay.py 704-708): returns the current counter and
bumps it by two; the relay direction uses even ids. -/
def alloc_stream_id (next_stream_id : Nat) : Nat × Nat :=
  (next_stream_id, next_stream_id + 2)

/-- Counter value after n allocations of a session (counter starts at 0). -/
def stateAfterAllocs : Nat → Nat
  | 0 => 0
  | n + 1 => (alloc_stream_id (stateAfterAllocs n)).2

/-- The id returned by the (n+1)-st allocation within a session. -/
def relayStreamId (n : Nat) : Nat := (alloc_stream_id (stateAfterAllocs n)).1

/-- open_stream (relay.py 710-720): allocate an id, register an unresolved
future and an empty chunk list, and emit STREAM_OPEN `u32 id | u8 type | metadata`. -/
def open_stream (st : RelayState) (stream_type : Nat) (metadata : List Nat) :
    Nat × RelayState × Packet :=
  let (sid, next') := alloc_stream_id st.next_stream_id
  (sid,
   { st with
      next_stream_id := next'
      pending_streams := st.pending_streams ++ [(sid, none)]
      stream_data := st.stream_data ++ [(sid, [])] },
   ⟨PKT_STREAM_OPEN, u32be sid ++ stream_type :: metadata⟩)

/-- get_stream_data (relay.py 735-738): pop the chunk list and concatenate. -/
def get_stream_data (st : RelayState) (sid : Nat) : List Nat × RelayState :=
  (((alookup st.stream_data sid).getD []).flatten,
   { st with stream_data := aremove st.stream_data sid })

/-- get_stream_chunks (relay.py 740-742): pop the chunk list, boundaries kept. -/
def get_stream_chunks (st : RelayState) (sid : Nat) : List (List Nat) × RelayState :=
  ((alookup st.stream_data sid).getD [],
   { st with stream_data := aremove st.stream_data sid })

/-- handle_stream_data (relay.py 744-752): payloads shorter than the 4-byte
id prefix are ignored; the data (payload minus prefix) is appended to the
chunk list only when the id is registered in stream_data, else dropped. -/
def handle_stream_data (st : RelayState) (payload : List Nat) : RelayState :=
  if payload.length < 4 then st
  else
    let stream_id := beU32 (payload.take 4)
    let data := payload.drop 4
    if (alookup st.stream_data stream_id).isSome then
      { st with stream_data := aupdate st.stream_data stream_id (fun chunks => chunks ++ [data]) }
    else st

/-- handle_stream_end (relay.py 754-763): resolve the pending future with
`(status, extra)` when the id is pending; stream_data is left untouched. -/
def handle_stream_end (st : RelayState) (payload : List Nat) : RelayState :=
  if payload.length < 5 then st
  else
    let stream_id := beU32 (payload.take 4)
    let status := payload.getD 4 0
    let extra := payload.drop 5
    if (alookup st.pending_streams stream_id).isSome then
      { st with pending_streams :=
          aupdate st.pending_streams stream_id (fun _ => some (.result status extra)) }
    else st

/-- handle_stream_error (relay.py 765-776): resolve the pending future with
an exception carrying the error code and message. -/
def handle_stream_error (st : RelayState) (payload : List Nat) : RelayState :=
  if payload.length < 5 then st
  else
    let stream_id := beU32 (payload.take 4)
    let error_code := payload.getD 4 0
    let message :=
      if payload.length > 5 then (decode_string payload 5).1 else "Unknown error".data
    if (alookup st.pending_streams stream_id).isSome then
      { st with pending_streams :=
          aupdate st.pending_streams stream_id (fun _ => some (.failure error_code message)) }
    else st

/-- ack_received_bytes (relay.py 517-523): add `count` to the inbound
accumulator; once it reaches the 8 KiB threshold, emit a WINDOW_UPDATE
carrying the whole accumulator and reset it to zero. -/
def ack_received_bytes (bytes_received_unacked : Nat) (count : Nat) : Nat × List Packet :=
  let u := bytes_received_unacked + count
  if u ≥ WINDOW_UPDATE_THRESHOLD then (0, [⟨PKT_WINDOW_UPDATE, u32be u⟩]) else (u, [])

/-- One iteration of packet_dispatcher (relay.py 637-672) on an inbound
packet: the state it mutates and the packets it sends in response.
STREAM_DATA is handled then acked with the FULL payload length; TERM_INPUT
is queued for the terminal task (queue not modelled) and acked; a
WINDOW_UPDATE of at least 4 payload bytes lowers bytes_in_flight (Nat
subtraction is the max(0,·)); PING is answered by PONG with the same
payload; everything else leaves this state alone. -/
def packet_dispatcher_step (st : RelayState) (pkt : Packet) : RelayState × List Packet :=
  if pkt.ptype = PKT_STREAM_DATA then
    let st1 := handle_stream_data st pkt.payload
    let au := ack_received_bytes st1.bytes_received_unacked pkt.payload.length
    ({ st1 with bytes_received_unacked := au.1 }, au.2)
  else if pkt.ptype = PKT_STREAM_END then (handle_stream_end st pkt.payload, [])
  else if pkt.ptype = PKT_STREAM_ERROR then (handle_stream_error st pkt.payload, [])
  else if pkt.ptype = PKT_TERM_INPUT then
    let au := ack_received_bytes st.bytes_received_unacked pkt.payload.length
    ({ st with bytes_received_unacked := au.1 }, au.2)
  else if pkt.ptype = PKT_WINDOW_UPDATE then
    if pkt.payload.length ≥ 4 then
      ({ st with bytes_in_flight := st.bytes_in_flight - beU32 (pkt.payload.take 4) }, [])
    else (st, [])
  else if pkt.ptype = PKT_PING then (st, [⟨PKT_PONG, pkt.payload⟩])
  else (st, [])

/-- wait_stream default timeout in seconds (relay.py 722: `timeout: float = 300.0`). -/
def wait_stream_default_timeout : Nat := 300

/-- How the awaited future ends up from the caller's point of view. -/
inductive WaitOutcome where
  | resolvedWith (c : Completion)
  | timedOut
deriving Repr, DecidableEq

/-- wait_stream (relay.py 722-733): await the pending future under the
timeout.  A resolved result is returned; a resolved exception re-raises the
stream-error message; a timeout raises "Stream timeout".  The finally
block always pops the pending entry.  The body contains no send_packet
call, so the third component — the packets this function puts on the
wire — is empty in every case. -/
def wait_stream (st : RelayState) (sid : Nat) (o : WaitOutcome) :
    Except (List Char) (Nat × List Nat) × RelayState × List Packet :=
  let st' := { st with pending_streams := aremove st.pending_streams sid }
  match o with
  | .resolvedWith (.result status extra) => (.ok (status, extra), st', [])
  | .resolvedWith (.failure code msg) =>
      (.error ("Stream error ".data ++ natToStrL code ++ ": ".data ++ msg), st', [])
  | .timedOut => (.error "Stream timeout".data, st', [])

/-!
## Python str.count / str.replace and tool_edit_file (relay.py 1044-1091)

Both scan left to right, matching non-overlapping occurrences.  The fuel
argument is the length of the scanned list: every step consumes at least
one character, so starting fuel `s.length` is never exhausted.
-/

def pyCountAux (pat : List Char) : Nat → List Char → Nat
  | _, [] => 0
  | 0, _ :: _ => 0
  | fuel+1, c :: rest =>
    if pat.isPrefixOf (c :: rest) then
      1 + pyCountAux pat fuel (rest.drop (pat.length - 1))
    else pyCountAux pat fuel rest

/-- Python `s.count(pat)`; for the empty pattern Python counts len+1 slots. -/
def pyCount (s pat : List Char) : Nat :=
  if pat = [] then s.length + 1 else pyCountAux pat s.length s

def pyReplaceAllAux (old new : List Char) : Nat → List Char → List Char
  | _, [] => []
  | 0, l => l
  | fuel+1, c :: rest =>
    if old.isPrefixOf (c :: rest) then
      new ++ pyReplaceAllAux old new fuel (rest.drop (old.length - 1))
    else c :: pyReplaceAllAux old new fuel rest

/-- Python `s.replace(old, new)` (all non-overlapping occurrences; the
empty pattern inserts `new` at every slot). -/
def pyReplaceAll (s old new : List Char) : List Char :=
  if old = [] then new ++ s.flatMap (fun c => c :: new)
  else pyReplaceAllAux old new s.length s

/-- Python `s.replace(old, new, 1)` (first occurrence only). -/
def pyReplace1 : List Char → List Char → List Char → List Char
  | [], old, new => if old = [] then new else []
  | c :: rest, old, new =>
    if old = [] then new ++ c :: rest
    else if old.isPrefixOf (c :: rest) then new ++ rest.drop (old.length - 1)
    else c :: pyReplace1 rest old new

/-- tool_edit_file substitution core (relay.py 1044-1091) as a function of
the decoded file content: the old_string-required check, occurrence count,
uniqueness check, and the replacement performed.  The FILE_READ before and
FILE_WRITE after transport the content verbatim and are not part of the
substitution. -/
def tool_edit_file (content old_string new_string : List Char) (replace_all : Bool) :
    Except (List Char) (List Char) :=
  if old_string = [] then .error "old_string is required".data
  else
    let count := pyCount content old_string
    if count = 0 then .error "old_string not found in file".data
    else if count > 1 ∧ replace_all = false then
      .error ("old_string found ".data ++ natToStrL count ++
        " times. Use replace_all=true or provide more context.".data)
    else if replace_all then .ok (pyReplaceAll content old_string new_string)
    else .ok (pyReplace1 content old_string new_string)

/-!
## tool_read_file rendering (relay.py 976-1007)
-/

/-- enumerate(selected) with the line prefix of relay.py 1002: a width-6
right-justified 1-based number (`i + offset + 1`), a tab, and the line cut
to its first 2000 characters (`line[:2000]` — nothing is appended). -/
def numberLines (offset : Nat) : Nat → List (List Char) → List (List Char)
  | _, [] => []
  | i, l :: ls =>
    (rightJust 6 (natToStrL (i + offset + 1)) ++ '\t' :: l.take 2000) ::
      numberLines offset (i + 1) ls

/-- tool_read_file rendering (relay.py 976-1007): decode the received bytes
as UTF-8 with replacement, split on newline, slice `[offset : offset+limit]`,
number and truncate each selected line, join with newlines, and append the
`[Lines a-b of N]` footer exactly when `offset + limit < N`. -/
def tool_read_file_render (content : List Nat) (offset limit : Nat) : List Char :=
  let lines := splitOnChar '\n' (utf8Decode content)
  let total := lines.length
  let selected := (lines.drop offset).take limit
  let formatted := intercalateChars ['\n'] (numberLines offset 0 selected)
  if offset + limit < total then
    formatted ++ "\n\n[Lines ".data ++ natToStrL (offset + 1) ++ "-".data ++
      natToStrL (offset + selected.length) ++ " of ".data ++ natToStrL total ++ "]".data
  else formatted

/-!
## tool_execute_command rendering (relay.py 1252-1297)
-/

/-- Demultiplex EXEC chunks by their first byte (relay.py 1274-1284): 0x01
to stdout, 0x02 to stderr, empty chunks skipped, any other channel byte to
stdout. -/
def execSplitChannels (chunks : List (List Nat)) : List Nat × List Nat :=
  chunks.foldl
    (fun acc chunk =>
      match chunk with
      | [] => acc
      | channel :: data =>
        if channel = 0x01 then (acc.1 ++ data, acc.2)
        else if channel = 0x02 then (acc.1, acc.2 ++ data)
        else (acc.1 ++ data, acc.2))
    ([], [])

/-- tool_execute_command result assembly (relay.py 1252-1297) as a function
of the END status and extra bytes and the received chunks: a non-OK status
raises; otherwise the exit code is the big-endian signed i32 in the first
4 extra bytes (0 if fewer), the chunks are demultiplexed by channel byte,
and the text is stdout, a `[stderr]` block when stderr is non-empty, and an
`[exit status: N]` trailer when N is non-zero, joined by newlines
("(no output)" when all parts are empty). -/
def tool_execute_command_render (status : Nat) (extra : List Nat)
    (chunks : List (List Nat)) : Except (List Char) (List Char) :=
  if status ≠ STATUS_OK then .error ("Command failed: status=".data ++ natToStrL status)
  else
    let exit_code : Int := if extra.length ≥ 4 then beI32 (extra.take 4) else 0
    let split := execSplitChannels chunks
    let stdout := utf8Decode split.1
    let stderr := utf8Decode split.2
    let parts :=
      (if stdout ≠ [] then [stdout] else []) ++
      (if stderr ≠ [] then ["[stderr]\n".data ++ stderr] else []) ++
      (if exit_code ≠ 0 then ["[exit status: ".data ++ intToStrL exit_code ++ "]".data] else [])
    .ok (if parts = [] then "(no output)".data else intercalateChars ['\n'] parts)

/-!
## Handshake (relay.py handle_client 410-450)
-/

/-- Outcome of the handshake on the first received packet: either GOODBYE
is sent and the handler returns (no HELLO_ACK is ever sent on this path),
or the session fields are recorded and HELLO_ACK is sent with the given
payload. -/
inductive HandshakeResult where
  | goodbye (reason : Nat)
  | ack (remote_cwd : List Char) (remote_window : Nat)
      (resume_session simple_mode : Bool) (ack_payload : List Nat)
deriving Repr, DecidableEq

/-- The HELLO_ACK payload (relay.py 447-448): struct.pack('>BBII',
version, 0, DEFAULT_WINDOW, 0) truncated to its first 6 bytes, so the two
trailing reserved bytes never reach the wire. -/
def hello_ack_payload : List Nat :=
  (([PROTOCOL_VERSION, 0] ++ u32be DEFAULT_WINDOW) ++ u32be 0).take 6

/-- The handshake branch of handle_client (relay.py 410-450) on the first
packet received: require type HELLO, at least 6 payload bytes and
version 2, else GOODBYE(PROTOCOL_ERROR); on success record the peer cwd,
window and flag bits and reply HELLO_ACK. -/
def handle_client_handshake (pkt_type : Nat) (payload : List Nat) : HandshakeResult :=
  if pkt_type ≠ PKT_HELLO then .goodbye GOODBYE_PROTOCOL_ERROR
  else if payload.length < 6 then .goodbye GOODBYE_PROTOCOL_ERROR
  else
    let version := payload.getD 0 0
    let flags := payload.getD 1 0
    let window := beU32 ((payload.drop 2).take 4)
    let cwd := (decode_string payload 6).1
    if version ≠ PROTOCOL_VERSION then .goodbye GOODBYE_PROTOCOL_ERROR
    else
      .ack cwd window (decide (flags &&& FLAG_RESUME ≠ 0)) (decide (flags &&& FLAG_SIMPLE ≠ 0))
        hello_ack_payload

/-!
## POSIX path handling and the host file gateway
(relay.py resolve_path 940-945, resolve_host_path 947-962,
tool_upload_to_host 1417-1454, tool_download_from_host 1460-1508)

`os.path` on the Linux host is posixpath, so expanduser / join / normpath /
abspath are the pure string functions below.
-/

def isAbsPath (p : List Char) : Bool :=
  match p with
  | '/' :: _ => true
  | _ => false

/-- posixpath.expanduser for the `~` and `~/...` forms, with `home` the
host home directory (absolute, no trailing slash).  The `~user` form is a
host account lookup and is modelled as Python behaves for an unknown user:
the path is returned unchanged. -/
def expanduser (home : List Char) (p : List Char) : List Char :=
  match p with
  | '~' :: rest =>
    if rest = [] then home
    else if rest.headI = '/' then home ++ rest
    else p
  | _ => p

/-- posixpath.join of two components. -/
def pjoin (a b : List Char) : List Char :=
  if isAbsPath b then b
  else if a = [] ∨ a.getLast? = some '/' then a ++ b
  else a ++ '/' :: b

/-- The component loop of posixpath.normpath: drop empty and `.` parts;
`..` pops the previous part, except that it is kept literally when the path
is relative and nothing is left to pop, and dropped at the root of an
absolute path. -/
def normpathFold (isabs : Bool) (comps : List (List Char)) : List (List Char) :=
  comps.foldl
    (fun acc comp =>
      if comp = [] ∨ comp = ['.'] then acc
      else if comp ≠ "..".data ∨ (isabs = false ∧ acc = []) ∨ acc.getLast? = some "..".data then
        acc ++ [comp]
      else if acc ≠ [] then acc.dropLast
      else acc)
    []

/-- posixpath.normpath: collapse separators and dots.  Exactly two leading
slashes are preserved (POSIX), one or three-plus become one; an empty
result is ".". -/
def normpath (p : List Char) : List Char :=
  if p = [] then ['.']
  else
    let slashes : Nat :=
      if "//".data.isPrefixOf p ∧ ("///".data.isPrefixOf p) = false then 2
      else if "/".data.isPrefixOf p then 1
      else 0
    let comps := normpathFold (slashes > 0) (splitOnChar '/' p)
    let body := List.replicate slashes '/' ++ intercalateChars ['/'] comps
    if body = [] then ['.'] else body

/-- resolve_path (relay.py 940-945): an empty path becomes the remote cwd,
an absolute path passes through, a relative path is joined to the remote
cwd and normalised with POSIX semantics. -/
def resolve_path (remote_cwd : List Char) (path : List Char) : List Char :=
  if path = [] ∨ isAbsPath path then (if path = [] then remote_cwd else path)
  else normpath (pjoin remote_cwd path)

/-- resolve_host_path (relay.py 947-962), parameterised by the base
directory captured at startup (`os.path.abspath(os.getcwd())`, absolute and
normalised) and the host home directory: expand `~`, join relative paths
under the base, normalise (os.path.abspath of an already absolute path),
then accept only the base itself or a path starting with `base + '/'`. -/
def resolved_host_path (base home p : List Char) : List Char :=
  let expanded := expanduser home p
  let joined := if isAbsPath expanded then expanded else pjoin base expanded
  normpath joined

def resolve_host_path (base home p : List Char) : Except (List Char) (List Char) :=
  let resolved := resolved_host_path base home p
  if (base ++ ['/']).isPrefixOf resolved ∨ resolved = base then .ok resolved
  else .error ("Host path must be under ".data ++ base)

/-- Wire emissions of a tool, in order. -/
inductive WireOp where
  | openStream (stream_type : Nat) (metadata : List Nat)
  | streamData (data : List Nat)
  | streamEnd (status : Nat)
deriving Repr, DecidableEq

/-- tool_upload_to_host (relay.py 1417-1454) modelled through the opening
of its FILE_READ stream, with every wire emission up to that point recorded
in order: argument checks, host-path resolution and the overwrite check all
happen before any packet is sent; on success the resolved host destination
is returned.  (The remote read and host write that follow are beyond the
claims about this tool.) -/
def tool_upload_to_host (remote_cwd base home : List Char)
    (hostExists : List Char → Bool)
    (remote_path_arg host_path_arg : List Char) (overwrite : Bool) :
    Except (List Char) (List Char) × List WireOp :=
  let remote_path := resolve_path remote_cwd remote_path_arg
  if remote_path = [] then (.error "remote_path is required".data, [])
  else if host_path_arg = [] then (.error "host_path is required".data, [])
  else
    match resolve_host_path base home host_path_arg with
    | .error e => (.error e, [])
    | .ok host_path =>
      if hostExists host_path ∧ overwrite = false then
        (.error ("Host file already exists: ".data ++ host_path ++
          " (use overwrite=true to replace)".data), [])
      else (.ok host_path, [WireOp.openStream STREAM_FILE_READ (encode_string remote_path)])

/-- Fixed-size chunking of outbound content (relay.py 1496-1499); fuel is
the byte count, each step consumes CHUNK_SIZE ≥ 1 bytes. -/
def chunksOfAux : Nat → List Nat → List (List Nat)
  | 0, _ => []
  | _, [] => []
  | fuel+1, l => l.take CHUNK_SIZE :: chunksOfAux fuel (l.drop CHUNK_SIZE)

def chunksOf (l : List Nat) : List (List Nat) := chunksOfAux l.length l

/-- tool_download_from_host (relay.py 1460-1508): argument checks and
host-path resolution happen before any packet; when overwrite is false a
FILE_EXISTS stream is opened first and an existing remote file aborts;
then the host file is read (a missing file aborts) and its bytes are sent
on a FILE_WRITE stream in CHUNK_SIZE pieces followed by STREAM_END(OK).
`remoteExists` is the answer of the FILE_EXISTS round-trip and `hostFile`
the host read outcome. -/
def tool_download_from_host (remote_cwd base home : List Char)
    (remoteExists : Bool) (hostFile : Option (List Nat))
    (host_path_arg remote_path_arg : List Char) (overwrite : Bool) :
    Except (List Char) (List Char) × List WireOp :=
  let remote_path := resolve_path remote_cwd remote_path_arg
  if host_path_arg = [] then (.error "host_path is required".data, [])
  else if remote_path = [] then (.error "remote_path is required".data, [])
  else
    match resolve_host_path base home host_path_arg with
    | .error e => (.error e, [])
    | .ok host_path =>
      let existsOps :=
        if overwrite = false then
          [WireOp.openStream STREAM_FILE_EXISTS (encode_string remote_path)]
        else []
      if overwrite = false ∧ remoteExists then
        (.error ("Remote file already exists: ".data ++ remote_path ++
          " (use overwrite=true to replace)".data), existsOps)
      else
        match hostFile with
        | none => (.error ("Host file not found: ".data ++ host_path), existsOps)
        | some content =>
          (.ok remote_path,
           existsOps ++
             WireOp.openStream STREAM_FILE_WRITE (encode_string remote_path ++ [1, 164]) ::
             (chunksOf content).map WireOp.streamData ++ [WireOp.streamEnd STATUS_OK])

/-!
## Concrete states used by the counterexamples
-/

/-- State after the relay opens its first stream (id 0, FILE_READ). -/
def c2State0 : RelayState :=
  (open_stream initialRelayState STREAM_FILE_READ (encode_string "/tmp/f".data)).2.1

/-- State after the dispatcher then processes STREAM_END for id 0. -/
def c2State1 : RelayState :=
  (packet_dispatcher_step c2State0 ⟨PKT_STREAM_END, [0, 0, 0, 0, STATUS_OK]⟩).1

/-- State after the dispatcher then processes STREAM_DATA for id 0
carrying the single byte 0x78. -/
def c2State2 : RelayState :=
  (packet_dispatcher_step c2State1 ⟨PKT_STREAM_DATA, [0, 0, 0, 0, 120]⟩).1

/-!
## Helper lemmas
-/

theorem flowStep_le (w b : Nat) (e : FlowEvent) (h : b ≤ w) : flowStep w b e ≤ w := by
  cases e with
  | send t n =>
    simp only [flowStep]
    split
    · split
      · assumption
      · exact h
    · exact h
  | recvWindowUpdate p =>
    simp only [flowStep]
    split
    · exact le_trans (Nat.sub_le _ _) h
    · exact h

theorem foldl_flowStep_le (w : Nat) :
    ∀ (es : List FlowEvent) (b : Nat), b ≤ w → es.foldl (flowStep w) b ≤ w
  | [], _, h => h
  | e :: es, b, h => foldl_flowStep_le w es (flowStep w b e) (flowStep_le w b e h)

theorem lookup_aremove {β : Type} (m : List (Nat × β)) (k : Nat) :
    alookup (aremove m k) k = none := by
  induction m with
  | nil => rfl
  | cons e rest ih =>
    by_cases h : e.1 = k
    · simpa [aremove, List.filter_cons, h] using ih
    · simpa [aremove, List.filter_cons, alookup, h] using ih

theorem handle_stream_data_bru (st : RelayState) (p : List Nat) :
    (handle_stream_data st p).bytes_received_unacked = st.bytes_received_unacked := by
  unfold handle_stream_data
  by_cases h : p.length < 4
  · simp [h]
  · simp only [h, if_false]
    by_cases h2 : (alookup st.stream_data (beU32 (p.take 4))).isSome = true
    · simp [h2]
    · simp [h2]

theorem stateAfterAllocs_eq (n : Nat) : stateAfterAllocs n = 2 * n := by
  induction n with
  | zero => rfl
  | succ k ih => simp only [stateAfterAllocs, alloc_stream_id, ih]; omega

theorem relayStreamId_eq (n : Nat) : relayStreamId n = 2 * n := by
  simp [relayStreamId, alloc_stream_id, stateAfterAllocs_eq]

theorem isPrefixOf_eq_append {x l : List Char} (h : x.isPrefixOf l = true) :
    x ++ l.drop x.length = l := by
  obtain ⟨t, rfl⟩ := List.isPrefixOf_iff_prefix.mp h
  rw [List.drop_left]

theorem cons_drop_eq {x : List Char} {c : Char} {rest : List Char}
    (hx : x ≠ []) (h : x.isPrefixOf (c :: rest) = true) :
    x ++ rest.drop (x.length - 1) = c :: rest := by
  have happ := isPrefixOf_eq_append h
  obtain ⟨y, ys, rfl⟩ : ∃ y ys, x = y :: ys := by
    cases x with
    | nil => exact absurd rfl hx
    | cons a as => exact ⟨a, as, rfl⟩
  simpa using happ

theorem pyReplaceAllAux_self (x : List Char) (hx : x ≠ []) :
    ∀ (fuel : Nat) (s : List Char), s.length ≤ fuel → pyReplaceAllAux x x fuel s = s := by
  intro fuel
  induction fuel with
  | zero =>
    intro s hs
    have hnil : s = [] := List.length_eq_zero.mp (Nat.le_zero.mp hs)
    subst hnil
    rfl
  | succ f ih =>
    intro s hs
    match s with
    | [] => rfl
    | c :: rest =>
      simp only [pyReplaceAllAux]
      by_cases hp : x.isPrefixOf (c :: rest) = true
      · simp only [hp, if_true]
        have hlen : (rest.drop (x.length - 1)).length ≤ f := by
          have h1 : rest.length ≤ f := by simpa using hs
          have h2 := List.length_drop (x.length - 1) rest
          omega
        rw [ih _ hlen]
        exact cons_drop_eq hx hp
      · simp only [hp, if_false, Bool.false_eq_true]
        have h1 : rest.length ≤ f := by simpa using hs
        rw [ih rest h1]

theorem pyReplaceAll_self (s x : List Char) (hx : x ≠ []) : pyReplaceAll s x x = s := by
  simp only [pyReplaceAll, hx, if_false]
  exact pyReplaceAllAux_self x hx s.length s le_rfl

theorem pyReplace1_self (x : List Char) : ∀ s, pyReplace1 s x x = s := by
  intro s
  induction s with
  | nil => by_cases h : x = [] <;> simp [pyReplace1, h]
  | cons c rest ih =>
    by_cases h : x = []
    · subst h
      simp [pyReplace1]
    · simp only [pyReplace1, h, if_false]
      by_cases hp : x.isPrefixOf (c :: rest) = true
      · simp only [hp, if_true]
        exact cons_drop_eq h hp
      · simp [hp, ih]

theorem pyCountAux_pos_iff (x : List Char) (hx : x ≠ []) :
    ∀ (fuel : Nat) (s : List Char), s.length ≤ fuel →
      (1 ≤ pyCountAux x fuel s ↔ x <:+: s) := by
  intro fuel
  induction fuel with
  | zero =>
    intro s hs
    have hnil : s = [] := List.length_eq_zero.mp (Nat.le_zero.mp hs)
    subst hnil
    simp [pyCountAux, List.infix_nil, hx]
  | succ f ih =>
    intro s hs
    match s with
    | [] => simp [pyCountAux, List.infix_nil, hx]
    | c :: rest =>
      simp only [pyCountAux]
      by_cases hp : x.isPrefixOf (c :: rest) = true
      · simp only [hp, if_true]
        constructor
        · intro _
          exact (List.isPrefixOf_iff_prefix.mp hp).isInfix
        · intro _
          omega
      · simp only [hp, if_false, Bool.false_eq_true]
        have h1 : rest.length ≤ f := by simpa using hs
        rw [ih rest h1]
        constructor
        · intro h
          exact List.infix_cons_iff.mpr (Or.inr h)
        · intro h
          rcases List.infix_cons_iff.mp h with h2 | h2
          · exact absurd (List.isPrefixOf_iff_prefix.mpr h2) (by simpa using hp)
          · exact h2

theorem pyCount_pos_iff (s x : List Char) (hx : x ≠ []) :
    1 ≤ pyCount s x ↔ x <:+: s := by
  simp only [pyCount, hx, if_false]
  exact pyCountAux_pos_iff x hx s.length s le_rfl

/-!
## Claims
-/

/-- C1: for every session and at every instant, bytes_in_flight never
exceeds remote_window: a STREAM_DATA / TERM_OUTPUT send of n payload bytes
suspends until bytes_in_flight + n ≤ remote_window and then adds n, a
WINDOW_UPDATE of increment k sets bytes_in_flight to
max(0, bytes_in_flight - k), and sends of every other packet type neither
consume nor are gated by the window.  The invariant holds after every
event trace of a session. -/
theorem flow_control_invariant :
    (∀ (remote_window : Nat) (events : List FlowEvent),
        flowRun remote_window events ≤ remote_window) ∧
    (∀ (remote_window bytes_in_flight t n : Nat),
        t ≠ PKT_STREAM_DATA → t ≠ PKT_TERM_OUTPUT →
        flowStep remote_window bytes_in_flight (.send t n) = bytes_in_flight) := by
  constructor
  · intro w es
    exact foldl_flowStep_le w es 0 (Nat.zero_le w)
  · intro w b t n h1 h2
    simp [flowStep, h1, h2]

theorem flow_control_invariant_witness :
    flowRun 1024 [.send PKT_STREAM_DATA 1024, .send PKT_STREAM_DATA 1] ≤ 1024 ∧
    flowStep 1024 7 (.send PKT_PING 3) = 7 :=
  ⟨flow_control_invariant.1 1024 _,
   flow_control_invariant.2 1024 7 PKT_PING 3 (by decide) (by decide)⟩

/-- C2 counterexample: the relay opens stream 0, the dispatcher processes
STREAM_END for id 0 (the completion is resolved — first conjunct), and a
subsequent STREAM_DATA for id 0 is nevertheless appended to the chunk
buffer and handed to the consuming operation by get_stream_data (second
conjunct).  The data is not silently dropped, contrary to the claim. -/
theorem stream_data_after_end_consumed :
    alookup c2State1.pending_streams 0 = some (some (.result STATUS_OK [])) ∧
    (get_stream_data c2State2 0).1 = [120] := by decide

/-- C2 (amended): a STREAM_DATA payload is dropped iff its stream id has no
chunk buffer registered in stream_data — an id never opened, or one whose
buffer the consuming operation has already collected (get_stream_data pops
the buffer, so data arriving after collection is dropped).  Processing
STREAM_END or STREAM_ERROR resolves the completion but does not retire the
buffer, so DATA arriving between the END and the operation's collection is
still appended. -/
theorem stream_data_drop_amended :
    ∀ (st : RelayState) (payload : List Nat),
      (payload.length < 4 → handle_stream_data st payload = st) ∧
      (alookup st.stream_data (beU32 (payload.take 4)) = none →
        handle_stream_data st payload = st) ∧
      (4 ≤ payload.length →
        (alookup st.stream_data (beU32 (payload.take 4))).isSome = true →
        (handle_stream_data st payload).stream_data =
          aupdate st.stream_data (beU32 (payload.take 4))
            (fun chunks => chunks ++ [payload.drop 4])) ∧
      (∀ sid, alookup (get_stream_data st sid).2.stream_data sid = none) := by
  intro st payload
  refine ⟨fun h => ?_, fun h => ?_, fun h4 hs => ?_, fun sid => ?_⟩
  · simp [handle_stream_data, h]
  · unfold handle_stream_data
    split
    · rfl
    · simp [h]
  · simp [handle_stream_data, Nat.not_lt.mpr h4, hs]
  · simp [get_stream_data, lookup_aremove]

theorem stream_data_drop_amended_witness :
    handle_stream_data initialRelayState [0, 0] = initialRelayState ∧
    (handle_stream_data c2State0 [0, 0, 0, 0, 7]).stream_data =
      aupdate c2State0.stream_data (beU32 ([0, 0, 0, 0, 7].take 4))
        (fun chunks => chunks ++ [[0, 0, 0, 0, 7].drop 4]) :=
  ⟨(stream_data_drop_amended initialRelayState [0, 0]).1 (by decide),
   (stream_data_drop_amended c2State0 [0, 0, 0, 0, 7]).2.2.1 (by decide) (by decide)⟩

/-- C3 counterexample: a wait_stream timeout raises "Stream timeout" and
puts nothing on the wire — the emitted-packet list is empty, so in
particular no STREAM_CANCEL packet is sent, contrary to the claim (the
relay never sends PKT_STREAM_CANCEL at all). -/
theorem wait_stream_timeout_no_cancel :
    wait_stream { initialRelayState with pending_streams := [(0, none)] } 0 .timedOut =
      (.error "Stream timeout".data, initialRelayState, []) := by decide

/-- C3 (amended): wait_stream blocks until completion or timeout with a
default timeout of 300 s; on timeout it raises "Stream timeout" (surfaced
to the tool caller as an error result) and removes the pending waiter, but
it emits no packet — no STREAM_CANCEL is sent to the peer. -/
theorem wait_stream_timeout_amended :
    wait_stream_default_timeout = 300 ∧
    ∀ (st : RelayState) (sid : Nat) (o : WaitOutcome),
      (wait_stream st sid o).2.2 = [] ∧
      (wait_stream st sid o).2.1.pending_streams = aremove st.pending_streams sid ∧
      (o = .timedOut → (wait_stream st sid o).1 = .error "Stream timeout".data) := by
  refine ⟨rfl, fun st sid o => ⟨?_, ?_, ?_⟩⟩
  · cases o with
    | resolvedWith c => cases c <;> rfl
    | timedOut => rfl
  · cases o with
    | resolvedWith c => cases c <;> rfl
    | timedOut => rfl
  · intro h
    subst h
    rfl

theorem wait_stream_timeout_amended_witness :
    (wait_stream initialRelayState 4 .timedOut).1 = .error "Stream timeout".data :=
  (wait_stream_timeout_amended.2 initialRelayState 4 .timedOut).2.2 rfl

/-- C9: every stream id the relay allocates is even, and the sequence of
allocated ids within a session (0, 2, 4, ...) is strictly increasing, so
no id is ever reused for the lifetime of the connection. -/
theorem stream_ids_even_monotone :
    (∀ n, relayStreamId n % 2 = 0) ∧
    (∀ m n, m < n → relayStreamId m < relayStreamId n) := by
  constructor
  · intro n
    simp [relayStreamId_eq, Nat.mul_mod_right]
  · intro m n h
    simp only [relayStreamId_eq]
    omega

theorem stream_ids_even_monotone_witness :
    relayStreamId 2 % 2 = 0 ∧ relayStreamId 2 < relayStreamId 5 :=
  ⟨stream_ids_even_monotone.1 2, stream_ids_even_monotone.2 2 5 (by decide)⟩

/-- C10 (implicit): the dispatcher charges the inbound window accumulator
with the FULL payload length of every STREAM_DATA packet — the 4-byte
stream-id prefix included, and independently of whether the carried data is
appended or dropped (first conjunct: the accumulator and the emitted
packets depend only on the payload length).  A WINDOW_UPDATE carrying the
whole accumulator is emitted exactly when it reaches 8192, and the
accumulator is then reset to zero (second conjunct).  Hence the increment
can exceed the data bytes delivered: with 8187 bytes accumulated, a 5-byte
STREAM_DATA for unknown id 0 delivers nothing (the empty stream registry
is unchanged) yet tips the accumulator to 8192 and produces
WINDOW_UPDATE(8192) (third conjunct). -/
theorem window_accounting_full_payload :
    (∀ (st : RelayState) (payload : List Nat),
        (packet_dispatcher_step st ⟨PKT_STREAM_DATA, payload⟩).1.bytes_received_unacked =
          (ack_received_bytes st.bytes_received_unacked payload.length).1 ∧
        (packet_dispatcher_step st ⟨PKT_STREAM_DATA, payload⟩).2 =
          (ack_received_bytes st.bytes_received_unacked payload.length).2) ∧
    (∀ u c, ((ack_received_bytes u c).2 = [] ↔ u + c < WINDOW_UPDATE_THRESHOLD) ∧
        (WINDOW_UPDATE_THRESHOLD ≤ u + c →
          ack_received_bytes u c = (0, [⟨PKT_WINDOW_UPDATE, u32be (u + c)⟩]))) ∧
    (packet_dispatcher_step { initialRelayState with bytes_received_unacked := 8187 }
        ⟨PKT_STREAM_DATA, [0, 0, 0, 0, 9]⟩ =
      ({ initialRelayState with bytes_received_unacked := 0 },
       [⟨PKT_WINDOW_UPDATE, u32be 8192⟩])) := by
  refine ⟨fun st payload => ?_, fun u c => ⟨?_, fun h => ?_⟩, ?_⟩
  · simp only [packet_dispatcher_step, if_pos rfl, handle_stream_data_bru]
    exact ⟨rfl, rfl⟩
  · by_cases h : WINDOW_UPDATE_THRESHOLD ≤ u + c
    · simp only [ack_received_bytes]
      simp [h]
      try omega
    · simp only [ack_received_bytes]
      simp [h]
      try omega
  · simp [ack_received_bytes, h]
  · decide

theorem window_accounting_full_payload_witness :
    ack_received_bytes 0 8192 = (0, [⟨PKT_WINDOW_UPDATE, u32be 8192⟩]) :=
  (window_accounting_full_payload.2.1 0 8192).2 (by decide)

/-- C5: execute_command treats a non-zero exit code as success, not an
error: any END with status OK yields a successful render whatever the
extra bytes and chunks (first conjunct); the END extra is parsed as a
big-endian signed 32-bit exit code, each chunk's first byte selects the
channel, and on the literal scenario — chunks [01 "ls: /nope: No such
file"] and [02 "error\n"], END status 00 extra ffffffff — the rendered
text is exactly the claimed string with [stderr] block and
[exit status: -1] trailer (second conjunct). -/
theorem execute_command_nonzero_exit :
    (∀ (extra : List Nat) (chunks : List (List Nat)),
        ∃ s, tool_execute_command_render STATUS_OK extra chunks = .ok s) ∧
    tool_execute_command_render STATUS_OK [0xFF, 0xFF, 0xFF, 0xFF]
        [0x01 :: utf8Encode "ls: /nope: No such file".data,
         0x02 :: utf8Encode "error\n".data] =
      .ok "ls: /nope: No such file\n[stderr]\nerror\n\n[exit status: -1]".data := by
  constructor
  · intro extra chunks
    exact ⟨_, rfl⟩
  · decide

/-- C7: a first packet that is not HELLO, a HELLO payload shorter than 6
bytes, or a version byte other than 2 makes the relay send
GOODBYE(PROTOCOL_ERROR) and close without any HELLO_ACK (first conjunct:
the handshake result is the goodbye outcome, which carries no ack); on a
valid HELLO the relay records the NUL-terminated cwd after byte 6, the
big-endian window in bytes 2..5 and the two flag bits, and replies with a
HELLO_ACK whose payload is exactly the six bytes 02 00 00 04 00 00
(version 2, flags 0, window 262144 big-endian; the reserved trailer of the
10-byte struct.pack is cut off before sending). -/
theorem handshake_spec :
    ∀ (t : Nat) (p : List Nat),
      ((t ≠ PKT_HELLO ∨ p.length < 6 ∨ p.getD 0 0 ≠ PROTOCOL_VERSION) →
        handle_client_handshake t p = .goodbye GOODBYE_PROTOCOL_ERROR) ∧
      (t = PKT_HELLO → 6 ≤ p.length → p.getD 0 0 = PROTOCOL_VERSION →
        handle_client_handshake t p =
          .ack (decode_string p 6).1 (beU32 ((p.drop 2).take 4))
            (decide (p.getD 1 0 &&& FLAG_RESUME ≠ 0))
            (decide (p.getD 1 0 &&& FLAG_SIMPLE ≠ 0))
            [2, 0, 0, 4, 0, 0]) := by
  intro t p
  constructor
  · intro h
    rcases h with h | h | h
    · simp [handle_client_handshake, h]
    · unfold handle_client_handshake
      split
      · rfl
      · simp [h]
    · unfold handle_client_handshake
      split
      · rfl
      · split
        · rfl
        · simp [h]
          simpa using h
  · intro ht hlen hv
    subst ht
    unfold handle_client_handshake
    rw [if_neg (by simp), if_neg (by omega), if_neg (by simpa using hv)]
    have : hello_ack_payload = [2, 0, 0, 4, 0, 0] := by decide
    rw [this]

theorem handshake_spec_witness :
    handle_client_handshake PKT_HELLO ([2, 1, 0, 4, 0, 0] ++ utf8Encode "/home/me".data ++ [0]) =
      .ack "/home/me".data 262144 true false [2, 0, 0, 4, 0, 0] := by
  have h := (handshake_spec PKT_HELLO
      ([2, 1, 0, 4, 0, 0] ++ utf8Encode "/home/me".data ++ [0])).2 rfl (by decide) (by decide)
  rw [h]
  decide

/-- C8: upload_to_host and download_from_host resolve the host path by
expanding ~ and making it absolute relative to the relay startup directory,
and every path that resolution accepts is the base directory or a
descendant of it (first conjunct); when resolution rejects, both tools
raise "Host path must be under <base>" with an empty wire-emission list —
no stream is opened (second and third conjuncts); and with overwrite
absent or false, upload_to_host refuses an existing host destination,
again before any wire activity (fourth conjunct). -/
theorem host_confinement_spec :
    (∀ (base home p r : List Char),
        resolve_host_path base home p = .ok r →
        (base ++ ['/']).isPrefixOf r = true ∨ r = base) ∧
    (∀ (remote_cwd base home rarg harg e : List Char) (hostExists : List Char → Bool)
        (overwrite : Bool),
        resolve_path remote_cwd rarg ≠ [] → harg ≠ [] →
        resolve_host_path base home harg = .error e →
        tool_upload_to_host remote_cwd base home hostExists rarg harg overwrite =
          (.error e, [])) ∧
    (∀ (remote_cwd base home rarg harg e : List Char)
        (remoteExists : Bool) (hostFile : Option (List Nat)) (overwrite : Bool),
        harg ≠ [] → resolve_path remote_cwd rarg ≠ [] →
        resolve_host_path base home harg = .error e →
        tool_download_from_host remote_cwd base home remoteExists hostFile harg rarg overwrite =
          (.error e, [])) ∧
    (∀ (remote_cwd base home rarg harg r : List Char) (hostExists : List Char → Bool),
        resolve_path remote_cwd rarg ≠ [] → harg ≠ [] →
        resolve_host_path base home harg = .ok r → hostExists r = true →
        tool_upload_to_host remote_cwd base home hostExists rarg harg false =
          (.error ("Host file already exists: ".data ++ r ++
            " (use overwrite=true to replace)".data), [])) := by
  refine ⟨?_, ?_, ?_, ?_⟩
  · intro base home p r h
    simp only [resolve_host_path] at h
    split at h
    · injection h with h2
      subst h2
      assumption
    · cases h
  · intro remote_cwd base home rarg harg e hostExists overwrite h1 h2 he
    simp only [tool_upload_to_host]
    rw [he]
    simp [h1, h2]
  · intro remote_cwd base home rarg harg e remoteExists hostFile overwrite h1 h2 he
    simp only [tool_download_from_host]
    rw [he]
    simp [h1, h2]
  · intro remote_cwd base home rarg harg r hostExists h1 h2 hr hex
    simp only [tool_upload_to_host]
    rw [hr]
    simp [h1, h2, hex]

theorem host_confinement_spec_witness :
    tool_upload_to_host "/".data "/srv/work".data "/root".data (fun _ => false)
      "/etc/passwd".data "/tmp/x".data false =
      (.error "Host path must be under /srv/work".data, []) :=
  host_confinement_spec.2.1 "/".data "/srv/work".data "/root".data "/etc/passwd".data
    "/tmp/x".data "Host path must be under /srv/work".data (fun _ => false) false
    (by decide) (by decide) (by decide)

/-- C4 counterexample: "foo" is non-empty and occurs (twice) in
"foo\nfoo\n", yet edit_file(p, "foo", "foo") with replace_all left at its
default false does not succeed: it raises the found-2-times error. -/
theorem edit_file_self_duplicate_fails :
    tool_edit_file "foo\nfoo\n".data "foo".data "foo".data false =
      .error "old_string found 2 times. Use replace_all=true or provide more context.".data := by
  decide

/-- C4 (amended): for non-empty x, edit_file(p, x, x) leaves the file
content unchanged whenever it succeeds (first conjunct, for either value
of replace_all); with replace_all=true it succeeds iff x occurs at least
once in the content (second conjunct); with replace_all at its default
false it succeeds iff x occurs exactly once — the substitution rules
reject zero occurrences and, without replace_all, also more than one,
reporting the count (third conjunct). -/
theorem edit_file_self_amended :
    ∀ (content x : List Char), x ≠ [] →
      (∀ (b : Bool) (r : List Char), tool_edit_file content x x b = .ok r → r = content) ∧
      (exceptOk (tool_edit_file content x x true) = true ↔ x <:+: content) ∧
      (exceptOk (tool_edit_file content x x false) = true ↔ pyCount content x = 1) := by
  intro content x hx
  refine ⟨?_, ?_, ?_⟩
  · intro b r h
    simp only [tool_edit_file, hx, if_false] at h
    by_cases hc0 : pyCount content x = 0
    · simp [hc0] at h
    · cases b with
      | true =>
        simp [hc0] at h
        rw [← h, pyReplaceAll_self content x hx]
      | false =>
        by_cases hc1 : pyCount content x > 1
        · simp [hc0, hc1] at h
        · simp [hc0, hc1] at h
          rw [← h, pyReplace1_self x content]
  · simp only [tool_edit_file, hx, if_false]
    by_cases hc0 : pyCount content x = 0
    · have : ¬ x <:+: content := by
        intro hinf
        have := (pyCount_pos_iff content x hx).mpr hinf
        omega
      simp [hc0, exceptOk, this]
    · have hinf : x <:+: content := (pyCount_pos_iff content x hx).mp (by omega)
      simp [hc0, exceptOk, hinf]
  · simp only [tool_edit_file, hx, if_false]
    by_cases hc0 : pyCount content x = 0
    · simp [hc0, exceptOk]
      try omega
    · by_cases hc1 : pyCount content x > 1
      · simp [hc0, hc1, exceptOk]
        try omega
      · have h1 : pyCount content x = 1 := by omega
        simp [hc0, hc1, exceptOk, h1]

theorem edit_file_self_amended_witness :
    exceptOk (tool_edit_file "ab".data "a".data "a".data false) = true :=
  (edit_file_self_amended "ab".data "a".data (by decide)).2.2.mpr (by decide)

theorem utf8DecodeAux_ascii :
    ∀ (fuel : Nat) (bs : List Nat), bs.length ≤ fuel → (∀ b ∈ bs, b < 128) →
      utf8DecodeAux fuel bs = bs.map Char.ofNat := by
  intro fuel
  induction fuel with
  | zero =>
    intro bs hlen _
    have hnil : bs = [] := List.length_eq_zero.mp (Nat.le_zero.mp hlen)
    subst hnil
    rfl
  | succ f ih =>
    intro bs hlen hb
    match bs with
    | [] => rfl
    | b :: rest =>
      have h1 : b < 128 := hb b (by simp)
      simp only [utf8DecodeAux, if_pos h1, List.map]
      rw [ih rest (by simpa using hlen) (fun x hx => hb x (by simp [hx]))]

theorem splitOnChar_no_sep (sep : Char) :
    ∀ l : List Char, sep ∉ l → splitOnChar sep l = [l] := by
  intro l
  induction l with
  | nil => intro _; rfl
  | cons c rest ih =>
    intro h
    have hc : ¬ c = sep := fun e => h (by simp [e])
    have hrest : sep ∉ rest := fun hr => h (by simp [hr])
    simp only [splitOnChar, hc, if_false]
    rw [ih hrest]

theorem mem_splitOnChar_mem (sep : Char) :
    ∀ (t l : List Char) (c : Char), l ∈ splitOnChar sep t → c ∈ l → c ∈ t := by
  intro t
  induction t with
  | nil =>
    intro l c hl hc
    simp [splitOnChar] at hl
    subst hl
    cases hc
  | cons a rest ih =>
    intro l c hl hc
    by_cases ha : a = sep
    · simp only [splitOnChar, ha, if_pos rfl] at hl
      rcases List.mem_cons.mp hl with rfl | hl2
      · cases hc
      · exact List.mem_cons_of_mem a (ih l c hl2 hc)
    · simp only [splitOnChar, ha, if_false] at hl
      cases hsp : splitOnChar sep rest with
      | nil =>
        rw [hsp] at hl
        simp at hl
        subst hl
        rcases List.mem_cons.mp hc with rfl | hc2
        · simp
        · cases hc2
      | cons m ms =>
        rw [hsp] at hl
        rcases List.mem_cons.mp hl with rfl | hl2
        · rcases List.mem_cons.mp hc with rfl | hcm
          · simp
          · have hm : m ∈ splitOnChar sep rest := by rw [hsp]; simp
            exact List.mem_cons_of_mem a (ih m c hm hcm)
        · have hls : l ∈ splitOnChar sep rest := by rw [hsp]; simp [hl2]
          exact List.mem_cons_of_mem a (ih l c hls hc)

theorem digitChar_ne_lbracket (d : Nat) : digitChar d ≠ '[' := by
  have h : d % 10 < 10 := Nat.mod_lt d (by norm_num)
  revert h
  unfold digitChar
  generalize d % 10 = m
  intro h
  interval_cases m <;> decide

theorem lbracket_not_mem_natToStrAux : ∀ (fuel n : Nat), '[' ∉ natToStrAux fuel n := by
  intro fuel
  induction fuel with
  | zero => intro n; simp [natToStrAux]
  | succ f ih =>
    intro n
    simp only [natToStrAux]
    by_cases h : n < 10
    · simp only [h, if_pos]
      intro hmem
      rcases List.mem_cons.mp hmem with he | he
      · exact digitChar_ne_lbracket n he.symm
      · cases he
    · simp only [h, if_neg, if_false]
      intro hmem
      rcases List.mem_append.mp hmem with he | he
      · exact ih _ he
      · rcases List.mem_cons.mp he with he2 | he2
        · exact digitChar_ne_lbracket _ he2.symm
        · cases he2

theorem lbracket_not_mem_numberLine (offset j : Nat) (l : List Char) (hl : '[' ∉ l) :
    '[' ∉ rightJust 6 (natToStrL (j + offset + 1)) ++ '\t' :: l.take 2000 := by
  intro hmem
  rcases List.mem_append.mp hmem with h | h
  · have h2 : '[' ∈ natToStrL (j + offset + 1) := by simpa [rightJust] using h
    exact lbracket_not_mem_natToStrAux _ _ h2
  · rcases List.mem_cons.mp h with h2 | h2
    · exact absurd h2 (by decide)
    · exact hl (List.take_subset 2000 l h2)

theorem lbracket_not_mem_intercalate :
    ∀ (xs : List (List Char)), (∀ l ∈ xs, '[' ∉ l) → '[' ∉ intercalateChars ['\n'] xs := by
  intro xs
  induction xs with
  | nil => intro _; simp [intercalateChars]
  | cons x ys ih =>
    intro h
    cases ys with
    | nil => simpa [intercalateChars] using h x (by simp)
    | cons y zs =>
      simp only [intercalateChars]
      intro hmem
      rcases List.mem_append.mp hmem with h1 | h1
      · rcases List.mem_append.mp h1 with h2 | h2
        · exact h x (by simp) h2
        · rcases List.mem_cons.mp h2 with h3 | h3
          · exact absurd h3 (by decide)
          · cases h3
      · exact ih (fun l hl => h l (by simp [hl])) h1

theorem numberLines_mem (offset : Nat) :
    ∀ (i : Nat) (ls : List (List Char)) (e : List Char), e ∈ numberLines offset i ls →
      ∃ j l, l ∈ ls ∧ e = rightJust 6 (natToStrL (j + offset + 1)) ++ '\t' :: l.take 2000 := by
  intro i ls
  induction ls generalizing i with
  | nil => intro e he; cases he
  | cons l ls ih =>
    intro e he
    rcases List.mem_cons.mp he with rfl | he2
    · exact ⟨i, l, by simp, rfl⟩
    · obtain ⟨j, l2, hl2, he3⟩ := ih (i + 1) e he2
      exact ⟨j, l2, by simp [hl2], he3⟩

theorem render_long_line :
    tool_read_file_render (List.replicate 2001 97) 0 2000 =
      "     1\t".data ++ List.replicate 2000 'a' := by
  have hd : utf8Decode (List.replicate 2001 97) = List.replicate 2001 'a' := by
    rw [utf8Decode]
    rw [utf8DecodeAux_ascii _ _ le_rfl (fun b hb => by
      rw [List.eq_of_mem_replicate hb]; norm_num)]
    rw [List.map_replicate]
  have hs : splitOnChar '\n' (List.replicate 2001 'a') = [List.replicate 2001 'a'] := by
    apply splitOnChar_no_sep
    intro hmem
    exact absurd (List.eq_of_mem_replicate hmem) (by decide)
  have hsel : (([List.replicate 2001 'a'].drop 0).take 2000) = [List.replicate 2001 'a'] := by
    rw [List.drop_zero]
    apply List.take_of_length_le
    rw [List.length_singleton]
    norm_num
  have htk : (List.replicate 2001 'a').take 2000 = List.replicate 2000 'a' := by
    rw [List.take_replicate, min_eq_left (by norm_num)]
  have hlen1 : [List.replicate 2001 'a'].length = 1 := List.length_singleton _
  simp only [tool_read_file_render, hd, hs, hsel, hlen1]
  rw [if_neg (by norm_num)]
  show intercalateChars ['\n']
      [rightJust 6 (natToStrL (0 + 0 + 1)) ++ '\t' :: (List.replicate 2001 'a').take 2000] = _
  rw [htk]
  have hr : rightJust 6 (natToStrL (0 + 0 + 1)) = "     1".data := by decide
  simp only [intercalateChars, hr]
  simp only [List.cons_append, List.nil_append]

/-- C6 counterexample: the file content is a single 2001-character line of
the letter a, so the claimed rendering would cut it to 2000 characters and
append "… (truncated)".  The code renders the number, a tab, and the first
2000 characters with nothing appended: the output contains no '…' at all. -/
theorem read_file_truncation_unmarked :
    tool_read_file_render (List.replicate 2001 97) 0 2000 =
      "     1\t".data ++ List.replicate 2000 'a' ∧
    '…' ∉ tool_read_file_render (List.replicate 2001 97) 0 2000 := by
  refine ⟨render_long_line, ?_⟩
  rw [render_long_line]
  intro hmem
  rcases List.mem_append.mp hmem with h | h
  · exact absurd h (by decide)
  · exact absurd (List.eq_of_mem_replicate h) (by decide)

/-- C6 (amended): read_file decodes the bytes as UTF-8 with replacement,
splits into lines, applies offset (0-based, default 0) and limit (default
2000), cuts each line to its FIRST 2000 CHARACTERS WITHOUT APPENDING ANY
MARKER, prefixes each selected line with a width-6 right-justified 1-based
number and a tab, and appends the [Lines a-b of N] footer exactly when
more lines remain after the window.  Conjuncts: the literal
"hello\nworld\n" scenario; an offset/limit window with its footer; the
silent 2000-character truncation; and, for content free of the character
\x5b, the footer bracket appears in the output iff offset + limit < N. -/
theorem read_file_render_amended :
    tool_read_file_render (utf8Encode "hello\nworld\n".data) 0 2000 =
      "     1\thello\n     2\tworld\n     3\t".data ∧
    tool_read_file_render (utf8Encode "a\nb\nc\nd\n".data) 1 2 =
      "     2\tb\n     3\tc\n\n[Lines 2-3 of 5]".data ∧
    tool_read_file_render (List.replicate 2001 97) 0 2000 =
      "     1\t".data ++ List.replicate 2000 'a' ∧
    (∀ (content : List Nat) (offset limit : Nat),
        '[' ∉ utf8Decode content →
        ('[' ∈ tool_read_file_render content offset limit ↔
          offset + limit < (splitOnChar '\n' (utf8Decode content)).length)) := by
  refine ⟨by decide, by decide, render_long_line, ?_⟩
  intro content offset limit h
  simp only [tool_read_file_render]
  by_cases hf : offset + limit < (splitOnChar '\n' (utf8Decode content)).length
  · rw [if_pos hf]
    constructor
    · intro _
      exact hf
    · intro _
      have hin : '[' ∈ "\n\n[Lines ".data := by decide
      simp [List.mem_append, hin]
  · rw [if_neg hf]
    constructor
    · intro hmem
      have hnot : '[' ∉ intercalateChars ['\n']
          (numberLines offset 0
            (((splitOnChar '\n' (utf8Decode content)).drop offset).take limit)) := by
        apply lbracket_not_mem_intercalate
        intro e he
        obtain ⟨j, l, hl, rfl⟩ := numberLines_mem offset 0 _ e he
        apply lbracket_not_mem_numberLine
        intro hcl
        have h1 : l ∈ splitOnChar '\n' (utf8Decode content) :=
          List.drop_subset offset _ (List.take_subset _ _ hl)
        exact h (mem_splitOnChar_mem '\n' (utf8Decode content) l '[' h1 hcl)
      exact absurd hmem hnot
    · intro hlt
      exact absurd hlt hf

theorem read_file_render_amended_witness :
    '[' ∈ tool_read_file_render (utf8Encode "x\ny".data) 0 0 :=
  (read_file_render_amended.2.2.2 (utf8Encode "x\ny".data) 0 0 (by decide)).mpr (by decide)

end Telepresence
